import Mathlib

/-!
Verification development for the `dis_snek` client (`src/dis_snek/client.py`).

Each section shallowly embeds one part of the client and proves properties
about it.  Definitions are transcribed from the Python source; the few
helper functions that live in modules outside `client.py` are modelled from
the specification and marked as such in their doc comments.
-/

namespace DisSnek

/-! ## Session state machine: the reconnect loop of `Snake._ws_connect`
(`client.py` lines 293-351).

One iteration of the `while not self.is_closed` loop either finishes with
the parameters for the next connection attempt (and possibly a 5 second
`asyncio.sleep`), returns (terminating the loop), or raises (a fatal
error propagating out of `_ws_connect`).  `events.Disconnect()` dispatches
are counted.  The reason the active connection ended is classified exactly
as the chain of `except` clauses in the source does. -/

/-- Reason the active `ws.run()` ended, mirroring the exception types caught
by `_ws_connect`: `WebSocketRestart(resume)`, `WebSocketClosed(code)`,
`OSError(errno)`, `GatewayNotFound` / `aiohttp.ClientError` /
`asyncio.TimeoutError`, or any other unexpected exception. -/
inductive WsFailure where
  | restart (resume : Bool)
  | closed (code : Nat)
  | osError (errno : Nat)
  | gatewayNotFound
  | clientError
  | timeoutError
  | unexpected
deriving DecidableEq

/-- Fatal outcomes: the distinguished `SnakeException`s raised for close
codes 4011 / 4013 / 4014, or re-raising the `WebSocketClosed` itself for
any other non-1000 close code. -/
inductive FatalKind where
  | shardingRequired
  | invalidIntents
  | privilegedIntents
  | closeCode (code : Nat)
deriving DecidableEq

/-- Outcome of one iteration of the reconnect loop.

`retry resume sessionId seq delay disconnects`: the loop continues with
`params` updated to these values; `delay` records whether
`await asyncio.sleep(5)` at the bottom of the loop body runs before the
next attempt (the `continue` statements skip it); `disconnects` counts
`events.Disconnect()` dispatches in this iteration.
`terminate` is the `return` path; `fatal` is a raise out of the loop. -/
inductive ConnOutcome where
  | retry (resume : Bool) (sessionId : Option Nat) (seq : Option Nat)
      (delay : Bool) (disconnects : Nat)
  | terminate (disconnects : Nat)
  | fatal (kind : FatalKind) (disconnects : Nat)
deriving DecidableEq

/-- Transcription of the failure handling in `_ws_connect` (lines 310-351).
`rdy` is `self._ready`; `sid` and `seq` are `self.ws.session_id` and
`self.ws.sequence` at the time the connection ended. -/
def handleWsFailure (rdy : Bool) (sid seq : Nat) : WsFailure → ConnOutcome
  | .restart true => .retry true (some sid) (some seq) false 1
  | .restart false => .retry false none none true 1
  | .closed code =>
    if code = 1000 then
      if rdy then .retry true (some sid) (some seq) false 1
      else .terminate 1
    else if code = 4011 then .fatal .shardingRequired 1
    else if code = 4013 then .fatal .invalidIntents 1
    else if code = 4014 then .fatal .privilegedIntents 1
    else .fatal (.closeCode code) 1
  | .osError errno =>
    if errno = 54 ∨ errno = 10054 then .retry true (some sid) (some seq) false 1
    else .retry false none none true 1
  | .gatewayNotFound => .retry false none none true 1
  | .clientError => .retry false none none true 1
  | .timeoutError => .retry false none none true 1
  | .unexpected => .retry false none none true 1

/-! ## Event dispatcher: wait resolution in `Snake.dispatch`
(`client.py` lines 515-523).

The source scans `self.waits[event.resolved_name]`, records the positions
of satisfied waits in `index_to_remove`, then runs
`for idx in index_to_remove: _waits.pop(idx)`.  We model the wait list as a
`List α` and the result of `_wait(event)` as a boolean function `sat`. -/

/-- Python `list.pop(i)`: removes the element at index `i`, or raises
`IndexError` (modelled as `none`) when `i` is out of range. -/
def listPopIdx {α : Type} (xs : List α) (i : Nat) : Option (List α) :=
  if i < xs.length then some (xs.eraseIdx i) else none

/-- Positions recorded in `index_to_remove` by the enumeration scan:
indices (in ascending order) of the waits whose call returned a truthy
result. -/
def satisfiedIndices {α : Type} (sat : α → Bool) (xs : List α) : List Nat :=
  (xs.enum.filter fun p => sat p.2).map fun p => p.1

/-- Wait-removal step of `dispatch`: pop each recorded index in order from
the (shrinking) live list.  `none` models an `IndexError` escaping
`dispatch`. -/
def removeSatisfiedWaits {α : Type} (sat : α → Bool) (xs : List α) :
    Option (List α) :=
  (satisfiedIndices sat xs).foldlM listPopIdx xs

/-! ## Wait registry: `Snake.wait_for` (`client.py` lines 525-543).

`wait_for` appends a `Wait(event, checks, future)` to
`self.waits[event]` and returns `asyncio.wait_for(future, timeout)`.
When the timeout elapses, `asyncio.wait_for` cancels the future and raises
`asyncio.TimeoutError`; no code in `client.py` removes the entry from
`self.waits` on that path — entries leave the table only through the
removal pass of `dispatch` above.  A wait slot is modelled by its check
predicate over the (abstracted, `Nat`-valued) event payload. -/

structure WaitSlot where
  check : Nat → Bool

/-- Registration step of `wait_for` (line 541): append the new slot to the
per-event pending list. -/
def waitForRegister (waits : List WaitSlot) (w : WaitSlot) : List WaitSlot :=
  waits ++ [w]

/-- Effect of one `dispatch` call on the pending list for the event's
name: run the wait-removal pass with each slot's check applied to the
event payload. -/
def dispatchStep (waits : List WaitSlot) (e : Nat) : Option (List WaitSlot) :=
  removeSatisfiedWaits (fun w => w.check e) waits

/-- Pending-list evolution over a sequence of dispatched events. -/
def dispatchTrace (waits : List WaitSlot) : List Nat → Option (List WaitSlot)
  | [] => some waits
  | e :: es =>
    match dispatchStep waits e with
    | none => none
    | some ws => dispatchTrace ws es

/-- State of the wait table at the moment a `wait_for` call's timeout
fires: the slot was appended at registration, the given events were
dispatched in between, and the timeout itself performs no table mutation
(there is no removal code on the `asyncio.TimeoutError` path). -/
def waitForScenario (waits : List WaitSlot) (w : WaitSlot)
    (events : List Nat) : Option (List WaitSlot) :=
  dispatchTrace (waitForRegister waits w) events

/-! ## Event dispatcher: listener fan-out (`Snake.dispatch` lines 500-513
and `Snake._queue_task` lines 353-367).

Each listener is started as its own task whose body is wrapped in
`try: await coro(...) except Exception as e: await self.on_error(event, e)`,
so an exception inside one listener is caught in that task and forwarded to
the error hook; it never reaches the other listeners or the caller of
`dispatch`.  A listener is modelled as a function from the event payload to
`Except Nat Unit` (its raised exception, if any). -/

/-- Body of `_async_wrap`: run the listener, returning the exception
forwarded to `on_error` (if one was raised). -/
def wrapListener (l : Nat → Except Nat Unit) (e : Nat) : Option Nat :=
  match l e with
  | .ok _ => none
  | .error ex => some ex

/-- Observable outcome of fanning one event out: how many listener tasks
ran, and the arguments of the `on_error` calls in order. -/
structure DispatchRun where
  tasksRun : Nat
  onErrorCalls : List Nat
deriving DecidableEq

/-- Fan-out loop of `dispatch`: every registered listener is queued and
runs wrapped; the loop itself never raises. -/
def dispatchListeners (ls : List (Nat → Except Nat Unit)) (e : Nat) :
    DispatchRun :=
  ls.foldl
    (fun acc l =>
      ⟨acc.tasksRun + 1, acc.onErrorCalls ++ (wrapListener l e).toList⟩)
    ⟨0, []⟩

/-! ## Cache readiness gate: `Snake._on_websocket_ready`
(`client.py` lines 450-478).

After computing `expected_guilds` from the handshake payload, the source
loops: `await asyncio.wait_for(self._guild_event.wait(), timeout)`; a
`TimeoutError` breaks out (partial cache); otherwise it clears the event
and breaks when `len(self.cache.guild_cache) == len(expected_guilds)` —
a comparison of sizes, not of the id sets themselves.  Each element of the
trace is one wake-up: `none` for a timeout, `some c` for a signal observed
with guild cache contents `c`. -/

inductive GateExit where
  | fullCache
  | partialCache
deriving DecidableEq

/-- Transcription of the wait loop: a timeout wake exits with a partial
cache; a signalled wake exits with a full cache exactly when the cached
guild count equals the expected count, and otherwise loops.  `none` means
the trace ended without the loop exiting (unreachable in the runtime,
where every wait ends in a signal or a timeout). -/
def readyGateLoop (expected : Finset Nat) :
    List (Option (Finset Nat)) → Option GateExit
  | [] => none
  | none :: _ => some .partialCache
  | some c :: rest =>
    if c.card = expected.card then some .fullCache
    else readyGateLoop expected rest

/-! ## Argument resolution for USER options: `Snake.get_context`
(`client.py` lines 896-900).

`value = (member_cache.get((guild_id, value)) or user_cache.get(value)) or value`
with `guild_id = data.get("guild_id", 0)`.  Cache objects are truthy, so
the Python `or` chain is exactly: member cache first, then user cache,
then the raw id.  Ids and cached objects are abstracted to `Nat`. -/

inductive ResolvedUser where
  | member (m : Nat)
  | user (u : Nat)
  | raw (v : Nat)
deriving DecidableEq

/-- Transcription of the USER branch of the option-resolution block.
`memberCache` is keyed by `(guildId, userId)` as in
`GlobalCache.member_cache`; a missing `guild_id` field defaults to `0`. -/
def resolveUserOption (memberCache : List ((Nat × Nat) × Nat))
    (userCache : List (Nat × Nat)) (guildId : Option Nat) (v : Nat) :
    ResolvedUser :=
  match memberCache.lookup (guildId.getD 0, v) with
  | some m => .member m
  | none =>
    match userCache.lookup v with
    | some u => .user u
    | none => .raw v

/-! ## Message commands: `Snake._dispatch_msg_commands`
(`client.py` lines 986-1014).

The whole body is guarded by `if not message.author.bot:`; inside it the
prefix is resolved via `await self.get_prefix(message)`, the mention
sentinel is matched against the message content, and the first word after
the prefix is looked up in `self.commands` and invoked when enabled. -/

/-- Modelled from the spec: `MENTION_PREFIX` is a sentinel constant from
`dis_snek.const` (not under `src/`); comparing the resolved value against
it selects mention matching instead of a literal match. -/
def MENTION_PFX : String := "<mention-sentinel>"

/-- Modelled from the spec: `get_first_word` from
`dis_snek.utils.input_utils` (not under `src/`) takes the first
whitespace-delimited token of its argument. -/
def getFirstWord (s : String) : String :=
  ((s.splitOn " ").headD "")

structure MsgAuthor where
  bot : Bool
deriving DecidableEq

structure Msg where
  author : MsgAuthor
  content : String
deriving DecidableEq

/-- Observable outcome of one `message_create` handling pass: the number
of `get_prefix` resolutions performed, and the name of the invoked command
(if any handler ran). -/
structure MsgCmdRun where
  pfxResolutions : Nat
  invoked : Option String
deriving DecidableEq

/-- Transcription of `_dispatch_msg_commands`.  `cmds` maps command names
to their `enabled` flag (`self.commands`); `pfxOf` is the pluggable
`get_prefix` resolver; `mentionMatch` returns the matched leading
mention-of-self text of a content string, if any (`self._mention_reg`). -/
def dispatchMsgCommands (cmds : List (String × Bool)) (pfxOf : Msg → String)
    (mentionMatch : String → Option String) (msg : Msg) : MsgCmdRun :=
  if msg.author.bot then ⟨0, none⟩
  else
    let p := pfxOf msg
    match (if p = MENTION_PFX then mentionMatch msg.content else some p) with
    | none => ⟨1, none⟩
    | some pfx =>
      if msg.content.startsWith pfx then
        let name := getFirstWord (msg.content.drop pfx.length)
        match cmds.lookup name with
        | some true => ⟨1, some name⟩
        | some false => ⟨1, none⟩
        | none => ⟨1, none⟩
      else ⟨1, none⟩

/-! ## Command reconciler: `Snake.synchronise_interactions`
(`client.py` lines 749-844).

For each scope in `cmd_scopes` the source, inside one `try`, fetches the
remote command list, matches every local command against it by cached
command id, bulk-posts the scope's commands when any comparison differs,
accumulates declared permission overwrites into `guild_perms` (a dict
created once *outside* the scope loop) and pushes every accumulated entry
(the push loop also sits *inside* the scope loop), and finally deletes
unmatched remote commands when `del_unused_app_cmd` is set.  The matching
`except Forbidden` clause raises `InteractionMissingAccess(cmd_scope)`,
which propagates out of the whole function.

Commands and their payloads are abstracted: a command's canonical
serialized form (`application_commands_to_dict` output entry) is a `Nat`
carried in the `json` field, and a permission overwrite is a
`(guild_id, payload)` pair. -/

structure LocalCmd where
  name : String
  cmdId : Option Nat
  json : Nat
  perms : List (Nat × Nat)
deriving DecidableEq

structure RemoteCmd where
  id : Nat
  name : String
  json : Nat
  guildId : Option Nat
deriving DecidableEq

/-- Per-scope environment: whether the HTTP GET for this scope raises
`Forbidden`, the locally registered commands of the scope
(`self.interactions[scope]`), and the remote list the GET returns. -/
structure ScopeData where
  forbidden : Bool
  localCmds : List LocalCmd
  remoteCmds : List RemoteCmd

/-- One entry appended to `guild_perms[guild_id]`: the command's cached id
and the payloads of all its declared overwrites. -/
abbrev PermEntry := Option Nat × List Nat

/-- The `guild_perms` dict, as an insertion-ordered association list. -/
abbrev GuildPerms := List (Nat × List PermEntry)

/-- Write calls issued against the HTTP transport:
`post_interaction_element`, `batch_edit_application_command_permissions`,
`delete_interaction_element`. -/
inductive WriteCall where
  | post (scope : Nat) (cmds : List Nat)
  | permUpdate (guildId : Nat) (entries : List PermEntry)
  | del (scope : Nat) (id : Nat)
deriving DecidableEq

/-- Marker for the global registration scope (`GLOBAL_SCOPE` in
`dis_snek.const`, the default of `cmd.get("guild_id", GLOBAL_SCOPE)`). -/
def GLOBAL_SCOPE : Nat := 0

/-- Modelled from the spec: `sync_needed` lives in `dis_snek.models` (not
under `src/`).  Per §4.5, a local command needs syncing when there is no
matching remote entry or its canonical serialized form differs from the
remote one. -/
def sync_needed (localJson : Nat) (remote : Option RemoteCmd) : Bool :=
  match remote with
  | none => true
  | some r => localJson != r.json

/-- Python accumulation `if x not in acc: acc.append(x)`, keeping first
occurrences (used for both `cmds_to_sync` and `found`). -/
def dedupFirst {α : Type} [DecidableEq α] (xs : List α) : List α :=
  xs.foldl (fun acc x => if x ∈ acc then acc else acc ++ [x]) []

/-- The source's remote match:
`next((v for v in cmds_resp_data if v["id"] == local_cmd.cmd_id), None)`. -/
def findRemote (remote : List RemoteCmd) (cid : Option Nat) :
    Option RemoteCmd :=
  remote.find? fun r => some r.id == cid

/-- Every local command of the scope paired with its remote match. -/
def scopePairs (d : ScopeData) : List (LocalCmd × Option RemoteCmd) :=
  d.localCmds.map fun l => (l, findRemote d.remoteCmds l.cmdId)

/-- The scope's `need_to_sync` flag after the matching loop. -/
def needSync (d : ScopeData) : Bool :=
  (scopePairs d).any fun p => sync_needed p.1.json p.2

/-- The scope's `cmds_to_sync` list after the matching loop. -/
def cmdsToSync (d : ScopeData) : List Nat :=
  dedupFirst ((scopePairs d).map fun p => p.1.json)

/-- The scope's `found` list after the matching loop (it can contain
`None`, exactly as in the source). -/
def foundRemotes (d : ScopeData) : List (Option RemoteCmd) :=
  dedupFirst ((scopePairs d).map fun p => p.2)

/-- Append to `guild_perms[k]`, creating the key at the end of the dict on
first use. -/
def assocAppend (gp : GuildPerms) (k : Nat) (e : PermEntry) : GuildPerms :=
  if gp.any (fun p => p.1 == k) then
    gp.map fun p => if p.1 == k then (p.1, p.2 ++ [e]) else p
  else gp ++ [(k, [e])]

/-- The per-command accumulation loop: for each declared overwrite, append
`{"id": cmd_id, "permissions": all of the command's overwrites}` under the
overwrite's guild (a command with no overwrites is skipped). -/
def addCmdPerms (gp : GuildPerms) (l : LocalCmd) : GuildPerms :=
  l.perms.foldl
    (fun acc perm => assocAppend acc perm.1 (l.cmdId, l.perms.map fun q => q.2))
    gp

/-- The `guild_perms` state after this scope's accumulation loop ran on
top of the state inherited from the previous scopes. -/
def scopePermState (gp : GuildPerms) (d : ScopeData) : GuildPerms :=
  d.localCmds.foldl addCmdPerms gp

/-- Write calls issued while processing one scope, in source order: the
conditional bulk post, then one permission update per accumulated
`guild_perms` key (pushed unconditionally on every scope iteration), then
the deletions of unmatched remote commands when `delU` is set. -/
def scopeWrites (delU : Bool) (gp : GuildPerms) (scope : Nat)
    (d : ScopeData) : List WriteCall :=
  (if needSync d then [WriteCall.post scope (cmdsToSync d)] else [])
    ++ (scopePermState gp d).map (fun p => WriteCall.permUpdate p.1 p.2)
    ++ (if delU then
          (d.remoteCmds.filter fun r => decide (some r ∉ foundRemotes d)).map
            (fun r => WriteCall.del (r.guildId.getD GLOBAL_SCOPE) r.id)
        else [])

/-- One iteration of the scope loop: `none` is the `except Forbidden`
path (`InteractionMissingAccess(cmd_scope)` raised out of the function),
otherwise the writes issued and the updated `guild_perms`. -/
def processScope (delU : Bool) (gp : GuildPerms) (scope : Nat)
    (d : ScopeData) : Option (List WriteCall × GuildPerms) :=
  if d.forbidden then none
  else some (scopeWrites delU gp scope d, scopePermState gp d)

/-- The scope loop of `synchronise_interactions`, threading `guild_perms`.
Returns the write calls issued before the pass ended and, when a scope's
GET was forbidden, that scope (the argument of the raised
`InteractionMissingAccess`) — the remaining scopes are never processed. -/
def syncGo (delU : Bool) (env : Nat → ScopeData) :
    List Nat → GuildPerms → List WriteCall × Option Nat
  | [], _ => ([], none)
  | s :: rest, gp =>
    match processScope delU gp s (env s) with
    | none => ([], some s)
    | some (ws, gp1) =>
      let r := syncGo delU env rest gp1
      (ws ++ r.1, r.2)

/-- Transcription of `synchronise_interactions`: run the scope loop over
`cmd_scopes` with an initially empty `guild_perms`. -/
def synchronise_interactions (delU : Bool) (cmdScopes : List Nat)
    (env : Nat → ScopeData) : List WriteCall × Option Nat :=
  syncGo delU env cmdScopes []

/-! ## Theorems -/

/-- C1 (counterexample): the claim puts the 5-unit delay on every retried
branch except the two internal-restart rows.  The code does the opposite on
three branches: an internal restart with `resume=False` falls through to
`asyncio.sleep(5)` (delay flag `true` below), while the post-ready clean
close (code 1000) and the transport-reset `OSError` (errno 54) both
`continue` past the sleep (delay flag `false`). -/
theorem c1_counterexample :
    handleWsFailure true 7 42 (WsFailure.restart false)
        = ConnOutcome.retry false none none true 1 ∧
      handleWsFailure true 7 42 (WsFailure.closed 1000)
        = ConnOutcome.retry true (some 7) (some 42) false 1 ∧
      handleWsFailure true 7 42 (WsFailure.osError 54)
        = ConnOutcome.retry true (some 7) (some 42) false 1 := by
  decide

/-- C1 (amended): among the branches that lead to another connection
attempt, the 5-unit delay is skipped exactly on the internal restart with
`resume=True`, the post-ready clean close, and the transport-reset
`OSError` branches; every other retried branch (including the internal
restart with `resume=False`) sleeps 5 units first. -/
theorem c1_delay_on_fresh_fallthrough_branches (rdy : Bool) (sid seq : Nat)
    (f : WsFailure) (r : Bool) (s q : Option Nat) (d : Bool) (n : Nat)
    (h : handleWsFailure rdy sid seq f = ConnOutcome.retry r s q d n) :
    d = false ↔
      (f = WsFailure.restart true ∨ (rdy = true ∧ f = WsFailure.closed 1000) ∨
        f = WsFailure.osError 54 ∨ f = WsFailure.osError 10054) := by
  cases f with
  | restart b =>
    cases b
    · simp [handleWsFailure] at h
      simp [h.2.2.2.1]
    · simp [handleWsFailure] at h
      simp [h.2.2.2.1]
  | closed code =>
    by_cases h1000 : code = 1000
    · subst h1000
      cases rdy
      · simp [handleWsFailure] at h
      · simp [handleWsFailure] at h
        simp [h.2.2.2.1]
    · by_cases h11 : code = 4011
      · simp [handleWsFailure, h1000, h11] at h
      · by_cases h13 : code = 4013
        · simp [handleWsFailure, h1000, h11, h13] at h
        · by_cases h14 : code = 4014
          · simp [handleWsFailure, h1000, h11, h13, h14] at h
          · simp [handleWsFailure, h1000, h11, h13, h14] at h
  | osError errno =>
    by_cases he : errno = 54 ∨ errno = 10054
    · simp [handleWsFailure, he] at h
      rcases he with he | he <;> subst he <;> simp [h.2.2.2.1]
    · simp [handleWsFailure, he] at h
      push_neg at he
      simp [h.2.2.2.1, he.1, he.2]
  | gatewayNotFound => simp [handleWsFailure] at h; simp [h.2.2.2.1]
  | clientError => simp [handleWsFailure] at h; simp [h.2.2.2.1]
  | timeoutError => simp [handleWsFailure] at h; simp [h.2.2.2.1]
  | unexpected => simp [handleWsFailure] at h; simp [h.2.2.2.1]

/-- C1 (witness): the amended theorem applied to the internal restart with
`resume=True`, whose retry outcome carries no delay. -/
theorem c1_delay_witness :
    (false = false ↔
      (WsFailure.restart true = WsFailure.restart true ∨
        (true = true ∧ WsFailure.restart true = WsFailure.closed 1000) ∨
        WsFailure.restart true = WsFailure.osError 54 ∨
        WsFailure.restart true = WsFailure.osError 10054)) :=
  c1_delay_on_fresh_fallthrough_branches true 3 4 (WsFailure.restart true)
    true (some 3) (some 4) false 1 (by decide)

/-- C2 (code defect, flagged by spec §9): with pending waits
`[10, 11, 12]` and an event satisfying the waits at positions 0 and 1,
the pop-by-recorded-index pass removes the waits `10` and `12` — the
second `pop(1)` runs on the already-shrunk list — leaving the *satisfied*
wait `11` pending and deleting the *unsatisfied* wait `12`, whereas
exactly-once removal of the satisfied waits would leave `[12]`. -/
theorem c2_index_removal_defect :
    removeSatisfiedWaits (fun n => decide (n ≤ 11)) [10, 11, 12]
        = some [11] ∧
      [10, 11, 12].filter (fun n => !decide (n ≤ 11)) = [12] := by
  decide

/-- C3: a close with code 1000 after readiness was reached dispatches
exactly one Disconnect and retries in resume mode carrying the current
session id and sequence, skipping the 5-unit sleep (`continue`). -/
theorem c3_clean_close_post_ready_resumes (sid seq : Nat) :
    handleWsFailure true sid seq (WsFailure.closed 1000)
      = ConnOutcome.retry true (some sid) (some seq) false 1 := by
  simp [handleWsFailure]

/-- Helper: the enumeration scan records no index when no element is
satisfied, for any start offset. -/
theorem enumFrom_filter_nil {α : Type} (sat : α → Bool) :
    ∀ (xs : List α) (n : Nat), (∀ x ∈ xs, sat x = false) →
      (List.enumFrom n xs).filter (fun p => sat p.2) = []
  | [], _, _ => rfl
  | x :: xs, n, h => by
    have hx : sat x = false := h x (by simp)
    simp only [List.enumFrom, List.filter, hx]
    exact enumFrom_filter_nil sat xs (n + 1) fun y hy => h y (by simp [hy])

/-- Helper: when no pending wait is satisfied by the event, the removal
pass of `dispatch` leaves the pending list unchanged. -/
theorem removeSatisfiedWaits_of_none {α : Type} (sat : α → Bool)
    (xs : List α) (h : ∀ x ∈ xs, sat x = false) :
    removeSatisfiedWaits sat xs = some xs := by
  unfold removeSatisfiedWaits satisfiedIndices
  rw [List.enum, enumFrom_filter_nil sat xs 0 h]
  rfl

/-- C6 (counterexample): a `wait_for` call on an empty wait table whose
timeout elapses with no event dispatched leaves the table holding one
entry — the table size does not return to its prior value `0`. -/
theorem c6_counterexample :
    (waitForScenario [] ⟨fun _ => false⟩ []).map List.length = some 1 ∧
      (1 : Nat) ≠ 0 := by
  exact ⟨rfl, by decide⟩

/-- C6 (amended): when no dispatched event satisfies any pending wait
before the timeout elapses, the call fails with the timeout error but the
registered entry is **not** removed: the table is exactly the prior table
with the entry still appended (one larger than before the call).  Entries
leave the table only through the removal pass of `dispatch`. -/
theorem c6_timeout_leaves_entry (tbl : List WaitSlot) (w : WaitSlot)
    (events : List Nat)
    (h : ∀ slot ∈ waitForRegister tbl w, ∀ e ∈ events, slot.check e = false) :
    waitForScenario tbl w events = some (tbl ++ [w]) ∧
      (tbl ++ [w]).length = tbl.length + 1 := by
  refine ⟨?_, by simp⟩
  unfold waitForScenario
  have key : ∀ (es : List Nat) (ws : List WaitSlot),
      (∀ slot ∈ ws, ∀ e ∈ es, slot.check e = false) →
      dispatchTrace ws es = some ws := by
    intro es
    induction es with
    | nil => intro ws _; rfl
    | cons e es ih =>
      intro ws hws
      have hstep : dispatchStep ws e = some ws :=
        removeSatisfiedWaits_of_none _ ws fun s hs => hws s hs e (by simp)
      simp only [dispatchTrace, hstep]
      exact ih ws fun s hs e' he' => hws s hs e' (by simp [he'])
  exact key events (waitForRegister tbl w) h

/-- C6 (witness): the amended theorem at a concrete scenario — an empty
table, one registered wait whose check never matches, and one dispatched
event before the timeout. -/
theorem c6_timeout_witness :
    waitForScenario [] ⟨fun _ => false⟩ [5]
        = some (([] : List WaitSlot) ++ [⟨fun _ => false⟩]) ∧
      (([] : List WaitSlot) ++ [WaitSlot.mk fun _ => false]).length
        = ([] : List WaitSlot).length + 1 :=
  c6_timeout_leaves_entry [] ⟨fun _ => false⟩ [5]
    (fun slot hslot e _ => by
      simp [waitForRegister] at hslot
      simp [hslot])

/-- Whether a listener raises on this event (its task's `except Exception`
clause fires). -/
def raises (l : Nat → Except Nat Unit) (e : Nat) : Bool :=
  match l e with
  | .error _ => true
  | .ok _ => false

/-- Helper: closed form of the fan-out fold for an arbitrary initial
accumulator. -/
theorem dispatchListeners_foldl (e : Nat) :
    ∀ (ls : List (Nat → Except Nat Unit)) (acc : DispatchRun),
      ls.foldl
          (fun acc l =>
            ⟨acc.tasksRun + 1, acc.onErrorCalls ++ (wrapListener l e).toList⟩)
          acc
        = ⟨acc.tasksRun + ls.length,
            acc.onErrorCalls ++ ls.filterMap (fun l => wrapListener l e)⟩
  | [], acc => by simp
  | l :: ls, acc => by
    rw [List.foldl_cons, dispatchListeners_foldl e ls]
    cases hw : wrapListener l e <;>
      simp [List.filterMap_cons, hw, Nat.add_comm, Nat.add_assoc, Nat.add_left_comm]

/-- Helper: the number of forwarded errors equals the number of listeners
that raise. -/
theorem filterMap_wrap_length (e : Nat) :
    ∀ ls : List (Nat → Except Nat Unit),
      (ls.filterMap fun l => wrapListener l e).length
        = ls.countP fun l => raises l e
  | [] => rfl
  | l :: ls => by
    rw [List.filterMap_cons, List.countP_cons]
    have ih := filterMap_wrap_length e ls
    cases h : l e with
    | ok a =>
      have hw : wrapListener l e = none := by simp [wrapListener, h]
      have hr : raises l e = false := by simp [raises, h]
      simp [hw, hr, ih]
    | error ex =>
      have hw : wrapListener l e = some ex := by simp [wrapListener, h]
      have hr : raises l e = true := by simp [raises, h]
      simp [hw, hr, ih]

/-- C7: dispatching an event to `N` registered listeners of which `K`
raise runs all `N` listener tasks, forwards exactly the `K` raised
exceptions (in listener order) to the `on_error` hook, and — since the
fan-out function is total — never lets a listener's exception abort the
other listeners or reach the caller of `dispatch`. -/
theorem c7_listener_error_isolation (ls : List (Nat → Except Nat Unit))
    (e : Nat) :
    (dispatchListeners ls e).tasksRun = ls.length ∧
      (dispatchListeners ls e).onErrorCalls
        = ls.filterMap (fun l => wrapListener l e) ∧
      (dispatchListeners ls e).onErrorCalls.length
        = ls.countP (fun l => raises l e) := by
  unfold dispatchListeners
  rw [dispatchListeners_foldl e ls ⟨0, []⟩]
  exact ⟨by simp, by simp, by simp [filterMap_wrap_length e ls]⟩

/-- C8 (counterexample): with expected guild set `{1}` and a wake that
observes cached guild set `{2}`, the gate exits with the full-cache
verdict although the observed set does not equal the expected set — the
source compares `len(self.cache.guild_cache) == len(expected_guilds)`,
i.e. cardinalities, not the id sets. -/
theorem c8_counterexample :
    readyGateLoop {1} [some {2}] = some GateExit.fullCache ∧
      ({2} : Finset Nat) ≠ {1} := by
  decide

/-- C8 (amended): the gate exits its wait loop with the full-cache verdict
only when some signalled wake observed a cached-guild **count** equal to
the expected count (set equality is not checked), and it exits with the
partial-cache verdict only via a wait timing out. -/
theorem c8_exit_by_count (expected : Finset Nat)
    (trace : List (Option (Finset Nat))) :
    (readyGateLoop expected trace = some GateExit.fullCache →
        ∃ c, some c ∈ trace ∧ c.card = expected.card) ∧
      (readyGateLoop expected trace = some GateExit.partialCache →
        none ∈ trace) := by
  induction trace with
  | nil => exact ⟨by intro h; simp [readyGateLoop] at h,
      by intro h; simp [readyGateLoop] at h⟩
  | cons o rest ih =>
    cases o with
    | none => exact ⟨by intro h; simp [readyGateLoop] at h, by simp⟩
    | some c =>
      by_cases hc : c.card = expected.card
      · exact ⟨fun _ => ⟨c, by simp, hc⟩,
          by intro h; simp [readyGateLoop, hc] at h⟩
      · constructor
        · intro h
          simp only [readyGateLoop, if_neg hc] at h
          obtain ⟨c', hmem, hcard⟩ := ih.1 h
          exact ⟨c', by simp [hmem], hcard⟩
        · intro h
          simp only [readyGateLoop, if_neg hc] at h
          simp [ih.2 h]

/-- C8 (witness): the amended theorem applied to the counterexample input,
where the loop exits full-cache on an observed set of matching size. -/
theorem c8_exit_witness :
    ∃ c : Finset Nat, some c ∈ [some ({2} : Finset Nat)] ∧
      c.card = ({1} : Finset Nat).card :=
  (c8_exit_by_count {1} [some {2}]).1 (by decide)

/-- C9: USER option resolution is total (the function always returns a
value) and tries the member cache keyed by `(guildId, value)` first, then
the user cache keyed by `value`, and otherwise leaves the raw id; in
particular an id present only in the user cache resolves to the cached
user object. -/
theorem c9_user_option_resolution (mC : List ((Nat × Nat) × Nat))
    (uC : List (Nat × Nat)) (g : Option Nat) (v : Nat) :
    (∀ m, mC.lookup (g.getD 0, v) = some m →
        resolveUserOption mC uC g v = ResolvedUser.member m) ∧
      (mC.lookup (g.getD 0, v) = none →
        ∀ u, uC.lookup v = some u →
          resolveUserOption mC uC g v = ResolvedUser.user u) ∧
      (mC.lookup (g.getD 0, v) = none → uC.lookup v = none →
        resolveUserOption mC uC g v = ResolvedUser.raw v) := by
  refine ⟨?_, ?_, ?_⟩
  · intro m hm
    simp [resolveUserOption, hm]
  · intro hm u hu
    simp [resolveUserOption, hm, hu]
  · intro hm hu
    simp [resolveUserOption, hm, hu]

/-- C9 (witness): id `5` is absent from the member cache and present in
the user cache as object `500`; the option resolves to the cached user. -/
theorem c9_user_witness :
    resolveUserOption [] [(5, 500)] none 5 = ResolvedUser.user 500 :=
  (c9_user_option_resolution [] [(5, 500)] none 5).2.1 rfl 500 rfl

/-- C10: a `message_create` event whose author carries the bot flag — any
bot account — performs no prefix resolution and invokes no message
command handler: the entire body of `_dispatch_msg_commands` is guarded by
`if not message.author.bot`. -/
theorem c10_bot_messages_ignored (cmds : List (String × Bool))
    (pfxOf : Msg → String) (mentionMatch : String → Option String)
    (msg : Msg) (h : msg.author.bot = true) :
    dispatchMsgCommands cmds pfxOf mentionMatch msg = ⟨0, none⟩ := by
  simp [dispatchMsgCommands, h]

/-- C10 (witness): a bot-authored message whose content starts with the
configured literal prefix and names an enabled command is still ignored
outright. -/
theorem c10_bot_witness :
    dispatchMsgCommands [("ping", true)] (fun _ => "!") (fun _ => none)
      ⟨⟨true⟩, "!ping"⟩ = ⟨0, none⟩ :=
  c10_bot_messages_ignored [("ping", true)] (fun _ => "!") (fun _ => none)
    ⟨⟨true⟩, "!ping"⟩ rfl

/-- Environment for the C4 counterexample: one scope whose single local
command is unchanged since a completed first run (its cached id matches
the remote entry and the canonical forms agree) and declares one
permission overwrite for guild `9`. -/
def envC4 : Nat → ScopeData := fun _ =>
  { forbidden := false
    localCmds := [⟨"cmd", some 1, 5, [(9, 3)]⟩]
    remoteCmds := [⟨1, "cmd", 5, none⟩] }

/-- C4 (counterexample): a second reconciliation run over an unchanged
command set with one declared permission overwrite still issues a write —
the bulk permission update is pushed unconditionally on every run, so the
run's write list is not empty as the claim requires. -/
theorem c4_counterexample :
    (synchronise_interactions false [0] envC4).1
        = [WriteCall.permUpdate 9 [(some 1, [3])]] ∧
      (synchronise_interactions false [0] envC4).1 ≠ [] := by
  decide

/-- Helper: when every local command has a remote match with an equal
canonical form, the scope's `need_to_sync` flag stays `False`. -/
theorem needSync_false_of_matched (d : ScopeData)
    (h : ∀ l ∈ d.localCmds, ∃ r,
      findRemote d.remoteCmds l.cmdId = some r ∧ r.json = l.json) :
    needSync d = false := by
  unfold needSync
  rw [List.any_eq_false]
  intro p hp
  unfold scopePairs at hp
  simp only [List.mem_map] at hp
  obtain ⟨l, hl, rfl⟩ := hp
  obtain ⟨r, hr, hrj⟩ := h l hl
  simp [sync_needed, hr, hrj]

/-- Helper: commands with no declared overwrites leave `guild_perms`
untouched. -/
theorem foldl_addCmdPerms_of_no_perms :
    ∀ (ls : List LocalCmd) (gp : GuildPerms), (∀ l ∈ ls, l.perms = []) →
      ls.foldl addCmdPerms gp = gp
  | [], _, _ => rfl
  | l :: ls, gp, h => by
    have hl : l.perms = [] := h l (by simp)
    have hstep : addCmdPerms gp l = gp := by simp [addCmdPerms, hl]
    rw [List.foldl_cons, hstep]
    exact foldl_addCmdPerms_of_no_perms ls gp fun x hx => h x (by simp [hx])

/-- Helper: a scope that is not forbidden, is fully matched, declares no
overwrites, and (when deletion is enabled) has no unmatched remote
command, issues no write call and leaves `guild_perms` empty. -/
theorem processScope_clean (delU : Bool) (scope : Nat) (d : ScopeData)
    (hf : d.forbidden = false)
    (hsync : ∀ l ∈ d.localCmds, ∃ r,
      findRemote d.remoteCmds l.cmdId = some r ∧ r.json = l.json)
    (hperm : ∀ l ∈ d.localCmds, l.perms = [])
    (hdel : delU = false ∨ ∀ r ∈ d.remoteCmds, some r ∈ foundRemotes d) :
    processScope delU [] scope d = some ([], []) := by
  have h1 : needSync d = false := needSync_false_of_matched d hsync
  have h2 : scopePermState [] d = [] :=
    foldl_addCmdPerms_of_no_perms d.localCmds [] hperm
  rcases hdel with hdel | hdel
  · simp [processScope, scopeWrites, hf, h1, h2, hdel]
  · have h3 : (d.remoteCmds.filter fun r =>
        decide (some r ∉ foundRemotes d)) = [] := by
      rw [List.filter_eq_nil_iff]
      intro r hr
      simp [hdel r hr]
    simp [processScope, scopeWrites, hf, h1, h2, h3]
    exact fun _ => hdel

/-- Helper: the scope loop over clean scopes issues no writes and ends
without a missing-access error. -/
theorem syncGo_clean (delU : Bool) (env : Nat → ScopeData) :
    ∀ scopes : List Nat,
      (∀ s ∈ scopes, (env s).forbidden = false) →
      (∀ s ∈ scopes, ∀ l ∈ (env s).localCmds, ∃ r,
        findRemote (env s).remoteCmds l.cmdId = some r ∧ r.json = l.json) →
      (∀ s ∈ scopes, ∀ l ∈ (env s).localCmds, l.perms = []) →
      (delU = false ∨ ∀ s ∈ scopes, ∀ r ∈ (env s).remoteCmds,
        some r ∈ foundRemotes (env s)) →
      syncGo delU env scopes [] = ([], none)
  | [], _, _, _, _ => rfl
  | s :: rest, hf, hsync, hperm, hdel => by
    have hps : processScope delU [] s (env s) = some ([], []) :=
      processScope_clean delU s (env s) (hf s (by simp)) (hsync s (by simp))
        (hperm s (by simp))
        (hdel.imp id fun h => h s (by simp))
    have ih := syncGo_clean delU env rest
      (fun t ht => hf t (by simp [ht]))
      (fun t ht => hsync t (by simp [ht]))
      (fun t ht => hperm t (by simp [ht]))
      (hdel.imp id fun h t ht => h t (by simp [ht]))
    simp [syncGo, hps, ih]

/-- C4 (amended): with unchanged local and remote command sets a second
reconciliation run issues no bulk post and no delete, and it issues zero
write calls overall only when no command declares permission overwrites —
declared overwrites are re-pushed by every run (see the counterexample). -/
theorem c4_second_run_no_writes_without_perms (delU : Bool)
    (scopes : List Nat) (env : Nat → ScopeData)
    (hf : ∀ s ∈ scopes, (env s).forbidden = false)
    (hsync : ∀ s ∈ scopes, ∀ l ∈ (env s).localCmds, ∃ r,
      findRemote (env s).remoteCmds l.cmdId = some r ∧ r.json = l.json)
    (hperm : ∀ s ∈ scopes, ∀ l ∈ (env s).localCmds, l.perms = [])
    (hdel : delU = false ∨ ∀ s ∈ scopes, ∀ r ∈ (env s).remoteCmds,
      some r ∈ foundRemotes (env s)) :
    synchronise_interactions delU scopes env = ([], none) :=
  syncGo_clean delU env scopes hf hsync hperm hdel

/-- Environment for the C4 witness: the same synced scope as `envC4`, but
with no declared permission overwrites. -/
def envC4clean : Nat → ScopeData := fun _ =>
  { forbidden := false
    localCmds := [⟨"cmd", some 1, 5, []⟩]
    remoteCmds := [⟨1, "cmd", 5, none⟩] }

/-- C4 (witness): the amended theorem at a concrete synced scope with no
declared overwrites — the second run issues zero write calls. -/
theorem c4_no_writes_witness :
    synchronise_interactions false [0] envC4clean = ([], none) :=
  c4_second_run_no_writes_without_perms false [0] envC4clean
    (fun _ _ => rfl)
    (fun s _ l hl => by
      simp only [envC4clean, List.mem_singleton] at hl
      subst hl
      exact ⟨⟨1, "cmd", 5, none⟩, rfl, rfl⟩)
    (fun s _ l hl => by
      simp only [envC4clean, List.mem_singleton] at hl
      subst hl
      rfl)
    (Or.inl rfl)

/-- Environment for C5: the GET for scope `0` answers `Forbidden`; scope
`1` is healthy but dirty (its command has never been synced); scope `2`
(used by the witness) is healthy and needs no sync. -/
def envC5 : Nat → ScopeData := fun s =>
  if s = 0 then { forbidden := true, localCmds := [], remoteCmds := [] }
  else { forbidden := false, localCmds := [⟨"b", none, 7, []⟩],
         remoteCmds := [] }

/-- C5 (counterexample): with scope `0` forbidden and scope `1` dirty, the
pass ends at scope `0` with the missing-access error naming it, and scope
`1` — whose `need_to_sync` would be `True` — is never reconciled: no write
at all is issued, contradicting the claim that every other scope still
runs to completion. -/
theorem c5_counterexample :
    synchronise_interactions false [0, 1] envC5 = ([], some 0) ∧
      needSync (envC5 1) = true := by
  decide

/-- Helper: a forbidden scope ends the scope loop at that scope — the
raised `InteractionMissingAccess` propagates out of the whole loop — so
the writes of the scopes before it are kept and the scopes after it are
never processed. -/
theorem syncGo_forbidden_split (delU : Bool) (env : Nat → ScopeData)
    (s : Nat) (hs : (env s).forbidden = true) :
    ∀ (pre : List Nat) (post : List Nat) (gp : GuildPerms),
      (∀ t ∈ pre, (env t).forbidden = false) →
      syncGo delU env (pre ++ s :: post) gp
        = ((syncGo delU env pre gp).1, some s)
  | [], post, gp, _ => by
    simp [syncGo, processScope, hs]
  | t :: pre, post, gp, hpre => by
    have ht : (env t).forbidden = false := hpre t (by simp)
    have ih := syncGo_forbidden_split delU env s hs pre post
      (scopePermState gp (env t)) fun x hx => hpre x (by simp [hx])
    simp [syncGo, processScope, ht, ih]

/-- C5 (amended): a forbidden response while processing one scope surfaces
as a missing-access error naming that scope, but it aborts that scope
**and every scope not yet processed** in the same pass; only the scopes
processed before it have been reconciled (their writes stand). -/
theorem c5_forbidden_aborts_remaining (delU : Bool) (env : Nat → ScopeData)
    (pre post : List Nat) (s : Nat)
    (hpre : ∀ t ∈ pre, (env t).forbidden = false)
    (hs : (env s).forbidden = true) :
    synchronise_interactions delU (pre ++ s :: post) env
      = ((synchronise_interactions delU pre env).1, some s) :=
  syncGo_forbidden_split delU env s hs pre post [] hpre

/-- C5 (witness): the amended theorem with one healthy scope before the
forbidden scope `0` and the dirty scope `1` after it. -/
theorem c5_forbidden_witness :
    synchronise_interactions false ([2] ++ 0 :: [1]) envC5
      = ((synchronise_interactions false [2] envC5).1, some 0) :=
  c5_forbidden_aborts_remaining false envC5 [2] [1] 0
    (fun t ht => by
      simp only [List.mem_singleton] at ht
      subst ht
      rfl)
    rfl

end DisSnek
